import Mathlib

/-!
Shallow embedding of Floresta's consensus module
(`crates/floresta-chain/src/pruned_utreexo/consensus.rs`) together with the
parts of its dependencies that the consensus rules use: byte-level
serialization of transactions and outputs, the compact-size (varint)
encoding, transaction weight, SHA-256 / SHA-512-256 digests, and an
association-list model of the `HashMap<OutPoint, TxOut>` UTXO view.

Bytes are modelled as `Nat` (all produced values are below 256); machine
integers (`u32`, `u64`) are modelled as `Nat`, with reductions modulo
`2 ^ 32` / `2 ^ 64` made explicit wherever the Rust code can wrap.
Fallible Rust code (indexing that may panic, `unwrap`) is modelled with
`Option`; `Result` values are modelled with `Except`.
-/

namespace Floresta

/-- Little-endian encoding of `n` on `k` bytes (extra high bits of `n` are
dropped, exactly as Rust's `to_le_bytes` on a fixed-width integer). -/
def toLe (k n : Nat) : List Nat := (List.range k).map (fun i => (n >>> (8 * i)) % 256)

/-- Big-endian encoding of `n` on `k` bytes. -/
def toBe (k n : Nat) : List Nat := (List.range k).map (fun i => (n >>> (8 * (k - 1 - i))) % 256)

/-- Big-endian word value of a byte list. -/
def beWord (bs : List Nat) : Nat := bs.foldl (fun acc b => acc * 256 + b) 0

/-- Splits a list into chunks of `k` elements (the last chunk may be shorter). -/
def chunks (k : Nat) (l : List Nat) : List (List Nat) :=
  if h : l = [] ∨ k = 0 then [] else (l.take k) :: chunks k (l.drop k)
termination_by l.length
decreasing_by
  simp only [not_or] at h
  have h1 : 0 < k := Nat.pos_of_ne_zero h.2
  have h2 : l.length ≠ 0 := by
    intro hc
    exact h.1 (List.eq_nil_of_length_eq_zero hc)
  simp [List.length_drop]
  omega

/-! ### SHA-256 (FIPS 180-4), used for txids and block hashes -/

def M32 : Nat := 4294967296

def add32 (a b : Nat) : Nat := (a + b) % M32

def rotr32 (n x : Nat) : Nat := ((x >>> n) ||| (x <<< (32 - n))) % M32

def shaCh (m x y z : Nat) : Nat := (x &&& y) ^^^ ((x ^^^ m) &&& z)

def shaMaj (x y z : Nat) : Nat := (x &&& y) ^^^ (x &&& z) ^^^ (y &&& z)

def sha256s0 (x : Nat) : Nat := rotr32 7 x ^^^ rotr32 18 x ^^^ (x >>> 3)

def sha256s1 (x : Nat) : Nat := rotr32 17 x ^^^ rotr32 19 x ^^^ (x >>> 10)

def sha256S0 (x : Nat) : Nat := rotr32 2 x ^^^ rotr32 13 x ^^^ rotr32 22 x

def sha256S1 (x : Nat) : Nat := rotr32 6 x ^^^ rotr32 11 x ^^^ rotr32 25 x

def K256 : List Nat := [
  1116352408, 1899447441, 3049323471, 3921009573, 961987163, 1508970993, 2453635748, 2870763221,
  3624381080, 310598401, 607225278, 1426881987, 1925078388, 2162078206, 2614888103, 3248222580,
  3835390401, 4022224774, 264347078, 604807628, 770255983, 1249150122, 1555081692, 1996064986,
  2554220882, 2821834349, 2952996808, 3210313671, 3336571891, 3584528711, 113926993, 338241895,
  666307205, 773529912, 1294757372, 1396182291, 1695183700, 1986661051, 2177026350, 2456956037,
  2730485921, 2820302411, 3259730800, 3345764771, 3516065817, 3600352804, 4094571909, 275423344,
  430227734, 506948616, 659060556, 883997877, 958139571, 1322822218, 1537002063, 1747873779,
  1955562222, 2024104815, 2227730452, 2361852424, 2428436474, 2756734187, 3204031479, 3329325298]

def IV256 : List Nat := [
  1779033703, 3144134277, 1013904242, 2773480762,
  1359893119, 2600822924, 528734635, 1541459225]

/-- Message padding shared by the SHA-2 family: append `0x80`, zero bytes to
an incomplete block, then the bit length on `lenBytes` big-endian bytes. -/
def shaPad (blockBytes lenBytes : Nat) (msg : List Nat) : List Nat :=
  let l := msg.length
  let padLen := (blockBytes - ((l + 1 + lenBytes) % blockBytes)) % blockBytes
  msg ++ [128] ++ List.replicate padLen 0 ++ toBe lenBytes (8 * l)

/-- Extends the 16-word schedule by `count` further SHA-256 schedule words. -/
def sha256extendW : Nat → List Nat → List Nat
  | 0, w => w
  | count + 1, w =>
    let i := w.length
    let next := (w.getD (i - 16) 0 + sha256s0 (w.getD (i - 15) 0)
      + w.getD (i - 7) 0 + sha256s1 (w.getD (i - 2) 0)) % M32
    sha256extendW count (w ++ [next])

abbrev Sha8 := Nat × Nat × Nat × Nat × Nat × Nat × Nat × Nat

def sha256rounds : List (Nat × Nat) → Sha8 → Sha8
  | [], st => st
  | (k, w) :: rest, (a, b, c, d, e, f, g, h) =>
    let t1 := (h + sha256S1 e + shaCh 4294967295 e f g + k + w) % M32
    let t2 := (sha256S0 a + shaMaj a b c) % M32
    sha256rounds rest ((t1 + t2) % M32, a, b, c, (d + t1) % M32, e, f, g)

def sha256compress (h : List Nat) (block : List Nat) : List Nat :=
  let w := sha256extendW 48 ((chunks 4 block).map beWord)
  let st := sha256rounds (K256.zip w)
    (h.getD 0 0, h.getD 1 0, h.getD 2 0, h.getD 3 0, h.getD 4 0, h.getD 5 0, h.getD 6 0, h.getD 7 0)
  match st with
  | (a, b, c, d, e, f, g, hh) =>
    [add32 (h.getD 0 0) a, add32 (h.getD 1 0) b, add32 (h.getD 2 0) c, add32 (h.getD 3 0) d,
     add32 (h.getD 4 0) e, add32 (h.getD 5 0) f, add32 (h.getD 6 0) g, add32 (h.getD 7 0) hh]

/-- SHA-256 digest of a byte list, as a 32-byte list. -/
def sha256 (msg : List Nat) : List Nat :=
  ((chunks 64 (shaPad 64 8 msg)).foldl sha256compress IV256).flatMap (toBe 4)

/-! ### SHA-512 core and SHA-512/256, used for utreexo leaf hashes -/

def M64 : Nat := 18446744073709551616

def add64 (a b : Nat) : Nat := (a + b) % M64

def rotr64 (n x : Nat) : Nat := ((x >>> n) ||| (x <<< (64 - n))) % M64

def sha512s0 (x : Nat) : Nat := rotr64 1 x ^^^ rotr64 8 x ^^^ (x >>> 7)

def sha512s1 (x : Nat) : Nat := rotr64 19 x ^^^ rotr64 61 x ^^^ (x >>> 6)

def sha512S0 (x : Nat) : Nat := rotr64 28 x ^^^ rotr64 34 x ^^^ rotr64 39 x

def sha512S1 (x : Nat) : Nat := rotr64 14 x ^^^ rotr64 18 x ^^^ rotr64 41 x

def K512 : List Nat := [
  4794697086780616226, 8158064640168781261, 13096744586834688815, 16840607885511220156,
  4131703408338449720, 6480981068601479193, 10538285296894168987, 12329834152419229976,
  15566598209576043074, 1334009975649890238, 2608012711638119052, 6128411473006802146,
  8268148722764581231, 9286055187155687089, 11230858885718282805, 13951009754708518548,
  16472876342353939154, 17275323862435702243, 1135362057144423861, 2597628984639134821,
  3308224258029322869, 5365058923640841347, 6679025012923562964, 8573033837759648693,
  10970295158949994411, 12119686244451234320, 12683024718118986047, 13788192230050041572,
  14330467153632333762, 15395433587784984357, 489312712824947311, 1452737877330783856,
  2861767655752347644, 3322285676063803686, 5560940570517711597, 5996557281743188959,
  7280758554555802590, 8532644243296465576, 9350256976987008742, 10552545826968843579,
  11727347734174303076, 12113106623233404929, 14000437183269869457, 14369950271660146224,
  15101387698204529176, 15463397548674623760, 17586052441742319658, 1182934255886127544,
  1847814050463011016, 2177327727835720531, 2830643537854262169, 3796741975233480872,
  4115178125766777443, 5681478168544905931, 6601373596472566643, 7507060721942968483,
  8399075790359081724, 8693463985226723168, 9568029438360202098, 10144078919501101548,
  10430055236837252648, 11840083180663258601, 13761210420658862357, 14299343276471374635,
  14566680578165727644, 15097957966210449927, 16922976911328602910, 17689382322260857208,
  500013540394364858, 748580250866718886, 1242879168328830382, 1977374033974150939,
  2944078676154940804, 3659926193048069267, 4368137639120453308, 4836135668995329356,
  5532061633213252278, 6448918945643986474, 6902733635092675308, 7801388544844847127]

/-- Initial state of SHA-512/256 (FIPS 180-4, section 5.3.6.2). -/
def IV512x256 : List Nat := [
  2463787394917988140, 11481187982095705282, 2563595384472711505, 10824532655140301501,
  10819967247969091555, 13717434660681038226, 3098927326965381290, 1060366662362279074]

def sha512extendW : Nat → List Nat → List Nat
  | 0, w => w
  | count + 1, w =>
    let i := w.length
    let next := (w.getD (i - 16) 0 + sha512s0 (w.getD (i - 15) 0)
      + w.getD (i - 7) 0 + sha512s1 (w.getD (i - 2) 0)) % M64
    sha512extendW count (w ++ [next])

def sha512rounds : List (Nat × Nat) → Sha8 → Sha8
  | [], st => st
  | (k, w) :: rest, (a, b, c, d, e, f, g, h) =>
    let t1 := (h + sha512S1 e + shaCh 18446744073709551615 e f g + k + w) % M64
    let t2 := (sha512S0 a + shaMaj a b c) % M64
    sha512rounds rest ((t1 + t2) % M64, a, b, c, (d + t1) % M64, e, f, g)

def sha512compress (h : List Nat) (block : List Nat) : List Nat :=
  let w := sha512extendW 64 ((chunks 8 block).map beWord)
  let st := sha512rounds (K512.zip w)
    (h.getD 0 0, h.getD 1 0, h.getD 2 0, h.getD 3 0, h.getD 4 0, h.getD 5 0, h.getD 6 0, h.getD 7 0)
  match st with
  | (a, b, c, d, e, f, g, hh) =>
    [add64 (h.getD 0 0) a, add64 (h.getD 1 0) b, add64 (h.getD 2 0) c, add64 (h.getD 3 0) d,
     add64 (h.getD 4 0) e, add64 (h.getD 5 0) f, add64 (h.getD 6 0) g, add64 (h.getD 7 0) hh]

/-- SHA-512/256 digest of a byte list: the SHA-512 computation started from
the SHA-512/256 initial state, truncated to 32 bytes. This is the digest
used by the `sha2` crate's `Sha512_256` hasher. -/
def sha512x256 (msg : List Nat) : List Nat :=
  (((chunks 128 (shaPad 128 16 msg)).foldl sha512compress IV512x256).flatMap (toBe 8)).take 32

/-! ### Data model (from `bitcoin`, the rust-bitcoin crate, as used by the
consensus module). Scripts, txids and hashes are byte lists; `u32`/`u64`
fields are `Nat`s holding values below the respective power of two. -/

/-- `bitcoin::OutPoint`: a (txid, vout) reference to a transaction output.
The txid is the 32-byte double-SHA-256 of the creating transaction. -/
structure OutPoint where
  txid : List Nat
  vout : Nat
deriving DecidableEq

/-- `bitcoin::TxOut`: amount in satoshis (`u64`) plus the locking script. -/
structure TxOut where
  value : Nat
  script_pubkey : List Nat
deriving DecidableEq

/-- `bitcoin::TxIn`: outpoint being spent, unlocking script, sequence and
segwit witness (a stack of byte strings). -/
structure TxIn where
  previous_output : OutPoint
  script_sig : List Nat
  sequence : Nat
  witness : List (List Nat)
deriving DecidableEq

/-- `bitcoin::Transaction`. The `version` field is serialized on 4 bytes
little-endian, so it is kept here as its `u32` bit pattern. -/
structure Transaction where
  version : Nat
  lock_time : Nat
  input : List TxIn
  output : List TxOut
deriving DecidableEq

/-- `bitcoin::block::Header`: the 80-byte block header fields. -/
structure BlockHeader where
  version : Nat
  prev_blockhash : List Nat
  merkle_root : List Nat
  time : Nat
  bits : Nat
  nonce : Nat
deriving DecidableEq

/-- `bitcoin::Block`: a header plus the transaction list. -/
structure Block where
  header : BlockHeader
  txdata : List Transaction
deriving DecidableEq

/-- Bitcoin's compact-size (varint) encoding of a length. -/
def varint (n : Nat) : List Nat :=
  if n < 253 then [n]
  else if n ≤ 65535 then 253 :: toLe 2 n
  else if n ≤ 4294967295 then 254 :: toLe 4 n
  else 255 :: toLe 8 n

/-- Number of bytes of the compact-size encoding
(`bitcoin::consensus::encode`'s `VarInt` length / `compact_size::encoded_size`). -/
def varint_size (n : Nat) : Nat :=
  if n < 253 then 1 else if n ≤ 65535 then 3 else if n ≤ 4294967295 then 5 else 9

/-- Consensus serialization of a `TxOut`: 8-byte little-endian value, then
the varint-prefixed script (spec section 6: "outputs are serialized as
8-byte little-endian value followed by varint-prefixed script"). -/
def serTxOut (o : TxOut) : List Nat :=
  toLe 8 o.value ++ varint o.script_pubkey.length ++ o.script_pubkey

/-- Consensus serialization of an `OutPoint`: txid bytes then vout. -/
def serOutPoint (p : OutPoint) : List Nat := p.txid ++ toLe 4 p.vout

/-- Consensus serialization of a `TxIn` (legacy part, without the witness). -/
def serTxIn (i : TxIn) : List Nat :=
  serOutPoint i.previous_output ++ varint i.script_sig.length ++ i.script_sig ++ toLe 4 i.sequence

/-- Legacy (pre-segwit) serialization of a transaction; this is the stream
whose double-SHA-256 is the txid. -/
def serTx (tx : Transaction) : List Nat :=
  toLe 4 tx.version ++ varint tx.input.length ++ tx.input.flatMap serTxIn
    ++ varint tx.output.length ++ tx.output.flatMap serTxOut ++ toLe 4 tx.lock_time

/-- `Transaction::compute_txid`: double SHA-256 of the legacy serialization,
kept here in raw (hash-engine) byte order, which is the order in which
rust-bitcoin feeds a `Txid` to hashers and compares it. -/
def compute_txid (tx : Transaction) : List Nat := sha256 (sha256 (serTx tx))

/-- Serialization of an 80-byte block header. -/
def serHeader (h : BlockHeader) : List Nat :=
  toLe 4 h.version ++ h.prev_blockhash ++ h.merkle_root ++ toLe 4 h.time
    ++ toLe 4 h.bits ++ toLe 4 h.nonce

/-- `Block::block_hash`: double SHA-256 of the serialized header. -/
def block_hash (b : Block) : List Nat := sha256 (sha256 (serHeader b.header))

/-- The all-zero txid (`Txid::all_zeros`). -/
def zeroTxid : List Nat := List.replicate 32 0

/-- `OutPoint::is_null`: the coinbase previous-output marker, all-zero txid
with `vout = u32::MAX`. -/
def OutPoint.is_null (p : OutPoint) : Bool := p.txid == zeroTxid && p.vout == 4294967295

/-- `Transaction::is_coinbase`: exactly one input, whose previous output is
the null outpoint. -/
def Transaction.is_coinbase (tx : Transaction) : Bool :=
  match tx.input with
  | [i] => i.previous_output.is_null
  | _ => false

/-! ### Transaction size and weight (rust-bitcoin `Transaction::weight`) -/

/-- Serialized size of a `TxIn` without its witness: 36-byte outpoint,
varint-prefixed script and 4-byte sequence. -/
def txin_base_size (i : TxIn) : Nat :=
  36 + varint_size i.script_sig.length + i.script_sig.length + 4

/-- Serialized size of a `TxOut`. -/
def txout_size (o : TxOut) : Nat :=
  8 + varint_size o.script_pubkey.length + o.script_pubkey.length

/-- Serialized size of a witness stack: varint item count, then each item
varint-prefixed. -/
def witness_size (w : List (List Nat)) : Nat :=
  varint_size w.length + (w.map (fun item => varint_size item.length + item.length)).sum

/-- A transaction is serialized in segwit form iff some input carries a
non-empty witness, or the input list is empty — rust-bitcoin serializes
input-less transactions in BIP-144 form to avoid serialization ambiguity
(`Transaction::uses_segwit_serialization`). -/
def uses_segwit (tx : Transaction) : Bool :=
  tx.input.any (fun i => !i.witness.isEmpty) || tx.input.isEmpty

/-- `Transaction::base_size`: size of the transaction serialized without
any witness data. -/
def tx_base_size (tx : Transaction) : Nat :=
  4 + varint_size tx.input.length + (tx.input.map txin_base_size).sum
    + varint_size tx.output.length + (tx.output.map txout_size).sum + 4

/-- `Transaction::total_size`: the base size plus, for segwit-serialized
transactions, the 2 marker/flag bytes and every input's witness. -/
def tx_total_size (tx : Transaction) : Nat :=
  tx_base_size tx
    + if uses_segwit tx then 2 + (tx.input.map (fun i => witness_size i.witness)).sum else 0

/-- `Transaction::weight().to_wu()`: three times the base size plus the
total size (BIP-141). -/
def transaction_weight (tx : Transaction) : Nat :=
  3 * tx_base_size tx + tx_total_size tx

/-! ### Script inspection (rust-bitcoin `Script::witness_version` and
`Script::count_sigops`) -/

/-- `Opcode::decode_pushnum`: `OP_PUSHNUM_1` (0x51) through `OP_PUSHNUM_16`
(0x60) decode to 1..16; every other opcode decodes to `none`. -/
def decode_pushnum (b : Nat) : Option Nat :=
  if 81 ≤ b ∧ b ≤ 96 then some (b - 80) else none

/-- One pass of `Script::count_sigops` (the `accurate = true` variant used
by `Script::count_sigops`): walks the instruction stream, counting 1 for
`OP_CHECKSIG`/`OP_CHECKSIGVERIFY` (0xac/0xad) and, for
`OP_CHECKMULTISIG`/`OP_CHECKMULTISIGVERIFY` (0xae/0xaf), the preceding
pushnum if one is cached and 20 otherwise. Push instructions clear the
pushnum cache; a truncated push makes the instruction iterator fail and
counting stops (`Err(_) => break`). -/
def count_sigops_aux : Nat → List Nat → Option Nat → Nat → Nat
  | 0, _, _, n => n
  | _ + 1, [], _, n => n
  | fuel + 1, b :: rest, cache, n =>
    if b ≤ 75 then
      -- OP_PUSHBYTES_0 .. OP_PUSHBYTES_75: b bytes of immediate data
      if rest.length < b then n else count_sigops_aux fuel (rest.drop b) none n
    else if b = 76 then
      -- OP_PUSHDATA1
      match rest with
      | [] => n
      | l :: rest2 => if rest2.length < l then n else count_sigops_aux fuel (rest2.drop l) none n
    else if b = 77 then
      -- OP_PUSHDATA2 (length little-endian on 2 bytes)
      match rest with
      | l0 :: l1 :: rest2 =>
        let l := l0 + 256 * l1
        if rest2.length < l then n else count_sigops_aux fuel (rest2.drop l) none n
      | _ => n
    else if b = 78 then
      -- OP_PUSHDATA4 (length little-endian on 4 bytes)
      match rest with
      | l0 :: l1 :: l2 :: l3 :: rest2 =>
        let l := l0 + 256 * l1 + 65536 * l2 + 16777216 * l3
        if rest2.length < l then n else count_sigops_aux fuel (rest2.drop l) none n
      | _ => n
    else if b = 172 ∨ b = 173 then count_sigops_aux fuel rest cache (n + 1)
    else if b = 174 ∨ b = 175 then
      match cache with
      | some pushnum => count_sigops_aux fuel rest cache (n + pushnum)
      | none => count_sigops_aux fuel rest cache (n + 20)
    else count_sigops_aux fuel rest (decode_pushnum b) n

/-- `Script::count_sigops`. Every iteration of the instruction stream
consumes at least one byte, so running the loop with the byte length as
(structurally decreasing) fuel exhausts the stream: when the fuel hits
zero the remaining stream is already empty. -/
def count_sigops (s : List Nat) : Nat := count_sigops_aux s.length s none 0

/-- `Script::witness_version`: a script is a witness program iff its length
is in 4..=42, its first byte is `OP_0` or a pushnum, and its second byte is
`OP_PUSHBYTES_n` with `n` between 2 and 40 equal to the remaining length.
Returns the witness version (0 for `OP_0`, `n` for `OP_PUSHNUM_n`). -/
def witness_version (s : List Nat) : Option Nat :=
  if s.length < 4 ∨ 42 < s.length then none
  else
    match s with
    | v :: p :: _ =>
      match (if v = 0 then some 0
             else if 81 ≤ v ∧ v ≤ 96 then some (v - 80) else none : Option Nat) with
      | none => none
      | some ver => if 2 ≤ p ∧ p ≤ 40 ∧ p = s.length - 2 then some ver else none
    | _ => none

/-! ### Error types. The enums live in `pruned_utreexo/error.rs` and
`floresta-common`, which are not among the provided sources; their
constructors are modelled from their uses in `consensus.rs` and from the
error taxonomy of spec section 7 (the constructor spelling
`FirstTxIsnNotCoinbase` is the source's). -/

inductive BlockValidationErrors where
  | EmptyBlock
  | BlockTooBig
  | BadCoinbaseOutValue
  | FirstTxIsnNotCoinbase
  | InvalidCoinbase (reason : String)
  | NotEnoughMoney
  | TooManyCoins
  | InvalidOutput
  | UtxoAlreadySpent (txid : List Nat)
  | ScriptError
deriving DecidableEq

/-- `TransactionError`: a transaction-scoped error wrapped with the txid of
the offending transaction. -/
structure TransactionError where
  txid : List Nat
  error : BlockValidationErrors
deriving DecidableEq

/-- `BlockchainError`, restricted to the two variants `consensus.rs`
produces via `.into()`: a bare block-validation error or a wrapped
transaction error. -/
inductive BlockchainError where
  | BlockValidation (err : BlockValidationErrors)
  | Transaction (err : TransactionError)
deriving DecidableEq

end Floresta

deriving instance DecidableEq for Except

namespace Floresta

/-! ### UTXO map. `verify_block_transactions` receives a
`HashMap<OutPoint, TxOut>`; we model it as an association list. A hash map
holds at most one binding per key, so `HashMap::remove` is modelled by
dropping every pair with the given key. -/

abbrev UtxoMap := List (OutPoint × TxOut)

def lookupUtxo : UtxoMap → OutPoint → Option TxOut
  | [], _ => none
  | (k, v) :: rest, key => if k = key then some v else lookupUtxo rest key

def removeUtxo (m : UtxoMap) (key : OutPoint) : UtxoMap :=
  m.filter (fun p => !(p.1 == key))

/-! ### The `Consensus` struct and its methods
(`pruned_utreexo/consensus.rs`) -/

/-- The value of a single coin in satoshis (`COIN_VALUE`). -/
def COIN_VALUE : Nat := 100000000

/-- The 64-byte version tag prepended (twice) to the leaf hash preimage:
the SHA-512 hash of the ASCII string `UtreexoV1`. Byte values copied from
the `UTREEXO_TAG_V1` constant in the source. -/
def UTREEXO_TAG_V1 : List Nat := [
  0x5b, 0x83, 0x2d, 0xb8, 0xca, 0x26, 0xc2, 0x5b, 0xe1, 0xc5, 0x42, 0xd6, 0xcc, 0xed, 0xdd, 0xa8,
  0xc1, 0x45, 0x61, 0x5c, 0xff, 0x5c, 0x35, 0x72, 0x7f, 0xb3, 0x46, 0x26, 0x10, 0x80, 0x7e, 0x20,
  0xae, 0x53, 0x4d, 0xc3, 0xf6, 0x42, 0x99, 0x19, 0x99, 0x31, 0x77, 0x2e, 0x03, 0x78, 0x7d, 0x18,
  0x15, 0x6e, 0xb3, 0x15, 0x1e, 0x0e, 0xd1, 0xb3, 0x09, 0x8b, 0xdc, 0x84, 0x45, 0x86, 0x18, 0x85]

/-- Chain parameters. Modelled from the spec: `chainparams.rs` is not among
the provided sources; spec section 4.1 lists the per-network constants, of
which only the subsidy halving interval (210,000 on mainnet) is used by the
functions verified here. -/
structure ChainParams where
  subsidy_halving_interval : Nat
deriving DecidableEq

/-- The `Consensus` struct: carries the chain parameters. -/
structure Consensus where
  parameters : ChainParams
deriving DecidableEq

/-- `Consensus::get_subsidy`: the block subsidy at a given height, halving
every `subsidy_halving_interval` blocks and forced to zero when the right
shift would be undefined on a `u64`. -/
def Consensus.get_subsidy (self : Consensus) (height : Nat) : Nat :=
  let halvings := height / self.parameters.subsidy_halving_interval
  if halvings ≥ 64 then 0
  else (50 * COIN_VALUE) >>> halvings

/-- `Consensus::get_leaf_hashes`: the utreexo leaf hash of output `vout` of
`transaction`, created at `height` in the block with hash `block_hash`.
The source fetches `transaction.output.get(vout).unwrap()`; the panicking
`unwrap` is modelled by returning `none` when `vout` is out of range.
The `sha2` hasher absorbs the chained updates in order, so `finalize`
digests the concatenation of the absorbed byte strings. -/
def Consensus.get_leaf_hashes (transaction : Transaction) (vout : Nat) (height : Nat)
    (bhash : List Nat) : Option (List Nat) :=
  match transaction.output[vout]? with
  | none => none
  | some utxo =>
    let header_code := height <<< 1
    let ser_utxo := serTxOut utxo
    let header_code := if transaction.is_coinbase then header_code ||| 1 else header_code
    some (sha512x256 (UTREEXO_TAG_V1 ++ UTREEXO_TAG_V1 ++ bhash ++ compute_txid transaction
      ++ toLe 4 vout ++ toLe 4 header_code ++ ser_utxo))

/-- `Consensus::consume_utxos`: looks the input's previous output up in the
UTXO map; when found, adds its value to the value accumulator and removes
the entry; when missing, fails with `UtxoAlreadySpent` carrying the
previous output's txid. The `&mut` map and accumulator are modelled by
returning the resulting map and accumulator next to the `Result`. -/
def Consensus.consume_utxos (input : TxIn) (utxos : UtxoMap) (value_var : Nat) :
    Except BlockValidationErrors Unit × UtxoMap × Nat :=
  match lookupUtxo utxos input.previous_output with
  | some prevout =>
    (Except.ok (), removeUtxo utxos input.previous_output, value_var + prevout.value)
  | none =>
    (Except.error (.UtxoAlreadySpent input.previous_output.txid), utxos, value_var)

/-- `Consensus::validate_script_size`: rejects scripts longer than 520
bytes, or shorter than 2 bytes when not the (taproot) exemption, or with
more than 80,000 sigops. The `||`/`&&` precedence is the Rust one:
`size > 520 || (size < 2 && !is_taproot)`. -/
def Consensus.validate_script_size (script : List Nat) : Except BlockValidationErrors Unit :=
  let scriptpubkeysize := script.length
  let is_taproot := witness_version script == some 1 && scriptpubkeysize == 32
  if 520 < scriptpubkeysize ∨ (scriptpubkeysize < 2 ∧ ¬ is_taproot = true) then
    .error .ScriptError
  else if 80000 < count_sigops script then .error .ScriptError
  else .ok ()

/-- `Consensus::get_out_value`: adds a strictly positive output value to the
accumulator; a zero value is an `InvalidOutput` error (and adds nothing). -/
def Consensus.get_out_value (out : TxOut) (value_var : Nat) :
    Except BlockValidationErrors Unit × Nat :=
  if 0 < out.value then (.ok (), value_var + out.value)
  else (.error .InvalidOutput, value_var)

/-- `Consensus::verify_coinbase`: index must be 0, the first input's
previous txid must be all zeros, and the first input's script-sig must be
between 2 and 100 bytes. The source indexes `transaction.input[0]`, which
panics on a transaction without inputs; the panic is modelled by `none`. -/
def Consensus.verify_coinbase (transaction : Transaction) (index : Nat) :
    Option (Except BlockValidationErrors Unit) :=
  if index ≠ 0 then some (.error .FirstTxIsnNotCoinbase)
  else
    match transaction.input[0]? with
    | none => none
    | some inp0 =>
      if inp0.previous_output.txid ≠ zeroTxid then
        some (.error (.InvalidCoinbase "Invalid coinbase txid"))
      else
        let scriptsigsize := inp0.script_sig.length
        if ¬ (2 ≤ scriptsigsize ∧ scriptsigsize ≤ 100) then
          some (.error (.InvalidCoinbase "Invalid ScriptSig size"))
        else some (.ok ())

/-- `Consensus::is_unspendable`: scripts longer than 10,000 bytes, and
non-empty scripts whose first byte is `OP_RETURN` (0x6a); the byte access
`script.as_bytes()[0]` sits behind the non-emptiness guard, rendered here
by the total `headD`. -/
def Consensus.is_unspendable (script : List Nat) : Bool :=
  if script.length > 10000 then true
  else if !script.isEmpty && script.headD 0 == 106 then true
  else false

/-! ### `Consensus::verify_block_transactions`

The source builds per-transaction errors with `map_err` but never applies
`?` to the resulting `Result`, so those values are dropped and the loop
continues; only the explicit `return Err(...)` statements
(`EmptyBlock`, `NotEnoughMoney`, `TooManyCoins`, `BlockTooBig`,
`BadCoinbaseOutValue`) actually leave the function. The embedding mirrors
this faithfully: the discarded results do not influence control flow, only
the state mutations that happened before an inner error are kept.
The `bitcoinconsensus` script-verification block is feature-gated off. -/

/-- The inner output loop: `get_out_value` accumulates each strictly
positive output value; its `InvalidOutput` error is discarded
(`.map_err(...)` without `?`), and `validate_script_size` on the
script-pubkey is pure with its result equally discarded. -/
def outputs_value : List TxOut → Nat → Nat
  | [], value_var => value_var
  | out :: rest, value_var => outputs_value rest (Consensus.get_out_value out value_var).2

/-- The inner input loop: `consume_utxos` errors are discarded, so a
missing UTXO leaves the map and accumulator untouched and the loop moves
on; `validate_script_size` on the script-sig is discarded likewise. -/
def consume_inputs : List TxIn → UtxoMap → Nat → UtxoMap × Nat
  | [], utxos, value_var => (utxos, value_var)
  | input :: rest, utxos, value_var =>
    let r := Consensus.consume_utxos input utxos value_var
    consume_inputs rest r.2.1 r.2.2

/-- `transactions[0].output.iter().fold(0, |acc, out| acc + out.value.to_sat())`. -/
def coinbase_out_sum (outs : List TxOut) : Nat :=
  outs.foldl (fun acc out => acc + out.value) 0

/-- The `for (n, transaction) in transactions.iter().enumerate()` loop of
`verify_block_transactions`, carrying the mutable `utxos`, `fee` and `wu`.
A coinbase at index 0 is skipped entirely (`continue`) after its
`verify_coinbase` result is built and discarded; for every other
transaction the output and input values are accumulated, inflation and
coin-supply checks run, and the transaction's weight is added to `wu`. -/
def verify_loop : List Transaction → Nat → UtxoMap → Nat → Nat →
    Except BlockchainError (UtxoMap × Nat × Nat)
  | [], _, utxos, fee, wu => .ok (utxos, fee, wu)
  | transaction :: rest, n, utxos, fee, wu =>
    if transaction.is_coinbase && n == 0 then
      -- `verify_coinbase(...).map_err(...)` is discarded; `continue`
      verify_loop rest (n + 1) utxos fee wu
    else
      let output_value := outputs_value transaction.output 0
      let r := consume_inputs transaction.input utxos 0
      if r.2 < output_value then
        .error (.Transaction ⟨compute_txid transaction, .NotEnoughMoney⟩)
      else if 21000000 * 100000000 < output_value then
        .error (.BlockValidation .TooManyCoins)
      else
        verify_loop rest (n + 1) r.1 (fee + (r.2 - output_value)) (wu + transaction_weight transaction)

/-- `Consensus::verify_block_transactions`. The trailing checks reject a
block whose accumulated (non-coinbase) weight exceeds 4,000,000 WU and a
coinbase paying more than fees plus subsidy. `transactions[0]` is safe
because emptiness was checked first, rendered by `headD`. -/
def Consensus.verify_block_transactions (height : Nat) (utxos : UtxoMap)
    (transactions : List Transaction) (subsidy : Nat) (verify_script : Bool) (flags : Nat) :
    Except BlockchainError Unit :=
  if transactions.isEmpty then .error (.BlockValidation .EmptyBlock)
  else
    match verify_loop transactions 0 utxos 0 0 with
    | .error e => .error e
    | .ok (_, fee, wu) =>
      if 4000000 < wu then .error (.BlockValidation .BlockTooBig)
      else if fee + subsidy < coinbase_out_sum (transactions.headD ⟨0, 0, [], []⟩).output then
        .error (.BlockValidation .BadCoinbaseOutValue)
      else .ok ()

/-! ### `Consensus::update_acc`

`update_acc` is pure: it collects the `(txid, vout)` pairs spent by any
input of the block into a `HashSet`, then walks every transaction's
outputs in order, pushing the leaf hash of each output that is spendable
and not spent inside the same block, and finally hands the list (converted
element-wise into rustreexo's byte-identical `NodeHash`) to
`stump.modify(&hashes, &del_hashes, &proof)` together with the translated
`del_hashes`. The accumulator call itself lives in the external rustreexo
crate; the additions list it receives is fully defined here. -/

/-- The intra-block spent set: `block_inputs`, a `HashSet` of the
`(previous_output.txid, previous_output.vout)` of every input of every
transaction of the block. `HashSet::contains` coincides with list
membership of this list. -/
def block_inputs (block : Block) : List (List Nat × Nat) :=
  block.txdata.flatMap
    (fun transaction => transaction.input.map
      (fun input => (input.previous_output.txid, input.previous_output.vout)))

/-- The inner `for (i, output) in transaction.output.iter().enumerate()`
loop of `update_acc`, pushing `get_leaf_hashes` of every spendable output
not spent in the same block. The source's `unwrap` inside
`get_leaf_hashes` cannot fire because `i` enumerates the outputs; the
(unreachable) `none` branch pushes nothing. -/
def leaf_hashes_of_tx (transaction : Transaction) (binputs : List (List Nat × Nat))
    (height : Nat) (bhash : List Nat) : Nat → List TxOut → List (List Nat)
  | _, [] => []
  | i, output :: rest =>
    if !(Consensus.is_unspendable output.script_pubkey)
        && !(binputs.contains (compute_txid transaction, i)) then
      match Consensus.get_leaf_hashes transaction i height bhash with
      | some h => h :: leaf_hashes_of_tx transaction binputs height bhash (i + 1) rest
      | none => leaf_hashes_of_tx transaction binputs height bhash (i + 1) rest
    else leaf_hashes_of_tx transaction binputs height bhash (i + 1) rest

/-- The additions list that `update_acc` passes to `stump.modify`: the
leaf hashes collected over all transactions of the block, in
(transaction index, output index) order. -/
def update_acc_additions (block : Block) (height : Nat) : List (List Nat) :=
  let bhash := block_hash block
  let binputs := block_inputs block
  block.txdata.flatMap
    (fun transaction => leaf_hashes_of_tx transaction binputs height bhash 0 transaction.output)

/-! ### Specification-side definitions (transcribed from the claims'
wording, for the refinement statements; the definitions above are the
source-side embedding) -/

/-- Claim wording: an output is spendable iff its script is at most 10,000
bytes long and its first byte is not `OP_RETURN` (0x6a). -/
def spendable (script : List Nat) : Bool :=
  decide (script.length ≤ 10000) && script.head? != some 106

/-- Claim wording: outpoint `(txid, vout)` is spent by some input of the
block. -/
def spent_in_block (block : Block) (txid : List Nat) (vout : Nat) : Bool :=
  block.txdata.any (fun transaction =>
    transaction.input.any (fun input => input.previous_output == ⟨txid, vout⟩))

/-- The leaf hash of a given output, written out as the claims describe it:
SHA-512/256 of tag ‖ tag ‖ block hash ‖ txid ‖ vout (LE32) ‖ header code
(LE32) ‖ serialized output. -/
def leaf_hash_of (transaction : Transaction) (vout : Nat) (o : TxOut) (height : Nat)
    (bhash : List Nat) : List Nat :=
  sha512x256 (UTREEXO_TAG_V1 ++ UTREEXO_TAG_V1 ++ bhash ++ compute_txid transaction
    ++ toLe 4 vout ++ toLe 4 ((height <<< 1) ||| cond transaction.is_coinbase 1 0)
    ++ serTxOut o)

/-- Claim wording of the additions list: for each transaction's outputs in
order, the leaf hash of every output that is spendable and whose outpoint
is not spent by any input of the same block. -/
def additions_spec (block : Block) (height : Nat) : List (List Nat) :=
  block.txdata.flatMap
    (fun transaction =>
      transaction.output.enum.filterMap
        (fun p =>
          if spendable p.2.script_pubkey
              && !(spent_in_block block (compute_txid transaction) p.1) then
            some (leaf_hash_of transaction p.1 p.2 height (block_hash block))
          else none))

/-- Total weight of a transaction list (the quantity the weight claim
speaks about when it says "all transactions"). -/
def total_weight (transactions : List Transaction) : Nat :=
  (transactions.map transaction_weight).sum

/-- The weight actually accumulated by `verify_block_transactions` when
enumeration starts at `n`: every transaction's weight except a coinbase
sitting at index 0. -/
def non_coinbase_weight : Nat → List Transaction → Nat
  | _, [] => 0
  | n, transaction :: rest =>
    (if transaction.is_coinbase && n == 0 then 0 else transaction_weight transaction)
      + non_coinbase_weight (n + 1) rest

/-! ### Concrete inputs for counterexamples and witnesses -/

/-- The null previous output of a coinbase input. -/
def nullOutPoint : OutPoint := ⟨zeroTxid, 4294967295⟩

/-- A minimal well-formed coinbase: null previous output, 2-byte
script-sig, a single zero-valued output. -/
def small_coinbase : Transaction :=
  ⟨1, 0, [⟨nullOutPoint, [1, 2], 4294967295, []⟩], [⟨0, [81]⟩]⟩

/-- A coinbase whose script-sig is 1,000,003 bytes: its own weight is
4,000,268 WU, above the 4,000,000 WU cap, while everything else about it
is unremarkable. -/
def big_coinbase : Transaction :=
  ⟨1, 0, [⟨nullOutPoint, List.replicate 1000003 0, 4294967295, []⟩], [⟨0, []⟩]⟩

/-- A coinbase claiming 50 satoshis, for blocks whose fees are 50. -/
def fee_coinbase : Transaction :=
  ⟨1, 0, [⟨nullOutPoint, [1, 2], 4294967295, []⟩], [⟨50, [81]⟩]⟩

/-- An outpoint held by the UTXO map of the zero-output example. -/
def c2_outpoint : OutPoint := ⟨List.replicate 32 1, 0⟩

/-- A transaction spending `c2_outpoint` whose only output has value
exactly 0 satoshis. -/
def zero_out_tx : Transaction :=
  ⟨1, 0, [⟨c2_outpoint, [1, 2], 4294967295, []⟩], [⟨0, [81]⟩]⟩

/-- The UTXO view for the zero-output example: the spent outpoint is
present and worth 50 satoshis. -/
def c2_utxos : UtxoMap := [(c2_outpoint, ⟨50, [81]⟩)]

/-- A transaction with two inputs whose first input looks like a coinbase
input (all-zero previous txid, 2-byte script-sig). -/
def two_input_coinbase : Transaction :=
  ⟨1, 0, [⟨nullOutPoint, [1, 2], 4294967295, []⟩,
          ⟨⟨List.replicate 32 9, 0⟩, [1, 2], 4294967295, []⟩], [⟨50, [81]⟩]⟩

/-- A coinbase-shaped transaction with a 210-byte script-sig. -/
def oversize_sig_coinbase : Transaction :=
  ⟨1, 0, [⟨nullOutPoint, List.replicate 210 0, 4294967295, []⟩], [⟨50, [81]⟩]⟩

/-- The spec's `consume_utxos` scenario: an 18,000,000-satoshi previous
output held in the map under vout 1. -/
def c6_outpoint : OutPoint := ⟨List.replicate 32 3, 1⟩

def c6_input : TxIn := ⟨c6_outpoint, [1, 2], 4294967295, []⟩

def c6_prevout : TxOut := ⟨18000000, [81]⟩

def c6_utxos : UtxoMap := [(c6_outpoint, c6_prevout)]

/-- An input whose previous output is nowhere in `c6_utxos`. -/
def c9_input : TxIn := ⟨⟨List.replicate 32 4, 0⟩, [1, 2], 4294967295, []⟩

/-- A block hash value for leaf-hash witnesses. -/
def c4_bhash : List Nat := List.replicate 32 2

/-- The output of `small_coinbase`, for the leaf-hash witness. -/
def c4_out : TxOut := ⟨0, [81]⟩

/-- A transaction with no inputs and a single empty-script output; its
outpoint is trivially unspent inside any block that has no inputs. -/
def c10_tx : Transaction := ⟨1, 0, [], [⟨7, []⟩]⟩

/-- A block containing only `c10_tx`. -/
def c10_block : Block := ⟨⟨1, List.replicate 32 0, List.replicate 32 0, 0, 0, 0⟩, [c10_tx]⟩

/-- Mainnet-like consensus parameters: 210,000-block halving interval. -/
def mainnet : Consensus := ⟨⟨210000⟩⟩

end Floresta

/-! ## Lemmas and claim theorems -/

set_option maxRecDepth 40000

namespace Floresta

/-- Removing a key from the UTXO map makes subsequent lookups of that key
fail: the association-list rendering of the hash-map no-double-spend
mechanism. -/
theorem lookupUtxo_removeUtxo (m : UtxoMap) (k : OutPoint) :
    lookupUtxo (removeUtxo m k) k = none := by
  induction m with
  | nil => rfl
  | cons p rest ih =>
    by_cases h : p.1 = k
    · simpa [removeUtxo, List.filter_cons, h] using ih
    · simpa [removeUtxo, List.filter_cons, h, lookupUtxo] using ih

/-- C6: `consume_utxos` succeeds exactly when the input's previous output
is a key of the UTXO map; on success it adds the entry's value to the
accumulator and removes the entry, so an immediate second call with the
same input fails; on failure it returns `UtxoAlreadySpent` with the
previous output's txid. -/
theorem consume_utxos_contract (input : TxIn) (utxos : UtxoMap) (value_var : Nat) :
    ((Consensus.consume_utxos input utxos value_var).1 = .ok ()
        ↔ (lookupUtxo utxos input.previous_output).isSome = true)
    ∧ (∀ p, lookupUtxo utxos input.previous_output = some p →
        Consensus.consume_utxos input utxos value_var
            = (.ok (), removeUtxo utxos input.previous_output, value_var + p.value)
          ∧ (Consensus.consume_utxos input (removeUtxo utxos input.previous_output)
              (value_var + p.value)).1
              = .error (.UtxoAlreadySpent input.previous_output.txid)) := by
  refine ⟨?_, ?_⟩
  · cases h : lookupUtxo utxos input.previous_output <;>
      simp [Consensus.consume_utxos, h]
  · intro p hp
    refine ⟨by simp [Consensus.consume_utxos, hp], ?_⟩
    simp [Consensus.consume_utxos, lookupUtxo_removeUtxo]

/-- Witness for C6, on the spec's scenario: an 18,000,000-satoshi prevout
under vout 1; the first call consumes it, the second call fails. -/
theorem consume_utxos_contract_witness :
    Consensus.consume_utxos c6_input c6_utxos 0
        = (.ok (), removeUtxo c6_utxos c6_input.previous_output, 0 + c6_prevout.value)
      ∧ (Consensus.consume_utxos c6_input (removeUtxo c6_utxos c6_input.previous_output)
          (0 + c6_prevout.value)).1
          = .error (.UtxoAlreadySpent c6_input.previous_output.txid) :=
  (consume_utxos_contract c6_input c6_utxos 0).2 c6_prevout (by decide)

/-- C9: when the input's previous output is not a key of the map,
`consume_utxos` returns `UtxoAlreadySpent` and leaves both the map and the
value accumulator exactly as they were. -/
theorem consume_utxos_atomic_on_failure (input : TxIn) (utxos : UtxoMap) (value_var : Nat)
    (h : lookupUtxo utxos input.previous_output = none) :
    Consensus.consume_utxos input utxos value_var
      = (.error (.UtxoAlreadySpent input.previous_output.txid), utxos, value_var) := by
  simp [Consensus.consume_utxos, h]

/-- Witness for C9: a miss on a concrete one-entry map returns the error
and the untouched map and accumulator. -/
theorem consume_utxos_atomic_on_failure_witness :
    Consensus.consume_utxos c9_input c6_utxos 7
      = (.error (.UtxoAlreadySpent c9_input.previous_output.txid), c6_utxos, 7) :=
  consume_utxos_atomic_on_failure c9_input c6_utxos 7 (by decide)

/-- C7: `get_subsidy` is the 50-coin base reward shifted right once per
completed halving interval, and is zero from the 64th halving on (where
the `u64` shift would be undefined, `Nat` shift is zero anyway). -/
theorem get_subsidy_spec (self : Consensus) (height : Nat)
    (hpos : 0 < self.parameters.subsidy_halving_interval) :
    Consensus.get_subsidy self height
        = (50 * COIN_VALUE) >>> (height / self.parameters.subsidy_halving_interval)
      ∧ (64 ≤ height / self.parameters.subsidy_halving_interval →
          Consensus.get_subsidy self height = 0) := by
  constructor
  · unfold Consensus.get_subsidy
    by_cases h64 : height / self.parameters.subsidy_halving_interval ≥ 64
    · rw [if_pos h64]
      symm
      rw [Nat.shiftRight_eq_div_pow]
      apply Nat.div_eq_of_lt
      calc 50 * COIN_VALUE < 2 ^ 64 := by norm_num [COIN_VALUE]
        _ ≤ 2 ^ (height / self.parameters.subsidy_halving_interval) :=
          Nat.pow_le_pow_right (by norm_num) h64
    · rw [if_neg h64]
  · intro h64
    unfold Consensus.get_subsidy
    rw [if_pos h64]

/-- Witness for C7: on the mainnet interval, the subsidy after 64 halvings
matches the shifted form and is zero; the subsidies at halving counts
0, 1, 32 and 63 come out as 50 coins, 25 coins, 1 satoshi and 0. -/
theorem get_subsidy_spec_witness :
    Consensus.get_subsidy mainnet 13440000 = (50 * COIN_VALUE) >>> (13440000 / 210000)
      ∧ Consensus.get_subsidy mainnet 13440000 = 0
      ∧ Consensus.get_subsidy mainnet 0 = 5000000000
      ∧ Consensus.get_subsidy mainnet 210000 = 2500000000
      ∧ Consensus.get_subsidy mainnet 6720000 = 1
      ∧ Consensus.get_subsidy mainnet 13230000 = 0 :=
  ⟨(get_subsidy_spec mainnet 13440000 (by decide)).1,
   (get_subsidy_spec mainnet 13440000 (by decide)).2 (by decide),
   by decide, by decide, by decide, by decide⟩

/-- C2 (code bug): a block with a non-coinbase transaction holding a
zero-valued output is nonetheless accepted: the `InvalidOutput` that
`get_out_value` raises is built by `map_err` and then dropped on the floor
instead of being propagated with `?`. -/
theorem zero_value_output_block_accepted :
    Consensus.verify_block_transactions 1 c2_utxos [fee_coinbase, zero_out_tx] 0 false 0
        = .ok ()
      ∧ zero_out_tx.is_coinbase = false
      ∧ zero_out_tx.output.any (fun o => o.value == 0) = true :=
  ⟨by decide, by decide, by decide⟩

end Floresta

namespace Floresta

/-- Counterexample to C5 as stated: `verify_coinbase` accepts a transaction
with TWO inputs (the claim requires exactly one input), because the input
count is never checked — only `input[0]` is inspected. -/
theorem verify_coinbase_claim_counterexample :
    Consensus.verify_coinbase two_input_coinbase 0 = some (.ok ())
      ∧ two_input_coinbase.input.length = 2 :=
  ⟨by decide, by decide⟩

/-- C5 (amended): for a transaction with a first input, `verify_coinbase`
accepts exactly at index 0, first-input previous txid all-zero, and
first-input script-sig length in 2..=100 (the input count is not checked);
a nonzero index yields `FirstTxIsnNotCoinbase`, and a 210-byte script-sig
on an otherwise valid coinbase yields `InvalidCoinbase` for the script-sig
size. -/
theorem verify_coinbase_spec (transaction : Transaction) (index : Nat) (inp0 : TxIn)
    (h0 : transaction.input[0]? = some inp0) :
    (Consensus.verify_coinbase transaction index = some (.ok ())
        ↔ index = 0 ∧ inp0.previous_output.txid = zeroTxid
            ∧ 2 ≤ inp0.script_sig.length ∧ inp0.script_sig.length ≤ 100)
    ∧ (index ≠ 0 →
        Consensus.verify_coinbase transaction index = some (.error .FirstTxIsnNotCoinbase))
    ∧ (index = 0 → inp0.previous_output.txid = zeroTxid → inp0.script_sig.length = 210 →
        Consensus.verify_coinbase transaction index
          = some (.error (.InvalidCoinbase "Invalid ScriptSig size"))) := by
  refine ⟨?_, ?_, ?_⟩
  · by_cases hi : index = 0
    · subst hi
      simp only [Consensus.verify_coinbase, ne_eq, not_true_eq_false, if_false,
        not_false_eq_true, if_true, h0]
      by_cases ht : inp0.previous_output.txid = zeroTxid
      · by_cases hs : 2 ≤ inp0.script_sig.length ∧ inp0.script_sig.length ≤ 100
        · simp [ht, hs]
        · simp only [ht, hs, if_neg, if_pos, not_false_eq_true, ite_true, ite_false]
          simp [hs]
      · simp [ht]
    · simp [Consensus.verify_coinbase, hi]
  · intro hi
    simp [Consensus.verify_coinbase, hi]
  · intro hi ht hlen
    subst hi
    simp [Consensus.verify_coinbase, h0, ht, hlen]

/-- Witness for C5: the minimal valid coinbase is accepted at index 0 and
rejected at index 1, and the 210-byte script-sig variant is rejected with
the script-sig size message. -/
theorem verify_coinbase_spec_witness :
    small_coinbase.input[0]? = some ⟨nullOutPoint, [1, 2], 4294967295, []⟩
      ∧ Consensus.verify_coinbase small_coinbase 0 = some (.ok ())
      ∧ Consensus.verify_coinbase small_coinbase 1 = some (.error .FirstTxIsnNotCoinbase)
      ∧ Consensus.verify_coinbase oversize_sig_coinbase 0
          = some (.error (.InvalidCoinbase "Invalid ScriptSig size")) :=
  ⟨by decide,
   (verify_coinbase_spec small_coinbase 0 ⟨nullOutPoint, [1, 2], 4294967295, []⟩
      (by decide)).1.mpr ⟨rfl, by decide, by decide, by decide⟩,
   (verify_coinbase_spec small_coinbase 1 ⟨nullOutPoint, [1, 2], 4294967295, []⟩
      (by decide)).2.1 (by decide),
   (verify_coinbase_spec oversize_sig_coinbase 0
      ⟨nullOutPoint, List.replicate 210 0, 4294967295, []⟩
      (by decide)).2.2 rfl (by decide) (by decide)⟩

end Floresta

namespace Floresta

/-- A script passing the source's taproot test has length exactly 32, so
the taproot carve-out can never rescue a script whose length lies outside
2..=520: the source's first rejection condition
`len > 520 || (len < 2 && !is_taproot)` and the claim's
`(len outside 2..=520) && !is_taproot` coincide. -/
theorem script_size_cond_iff (s : List Nat) :
    (520 < s.length ∨ (s.length < 2
        ∧ ¬ (witness_version s == some 1 && s.length == 32) = true))
      ↔ ((s.length < 2 ∨ 520 < s.length)
          ∧ ¬ (witness_version s = some 1 ∧ s.length = 32)) := by
  have htap : ((witness_version s == some 1 && s.length == 32) = true)
      ↔ (witness_version s = some 1 ∧ s.length = 32) := by
    simp [Bool.and_eq_true, beq_iff_eq]
  constructor
  · rintro (h520 | ⟨h2, ht⟩)
    · exact ⟨Or.inr h520, fun hc => by omega⟩
    · exact ⟨Or.inl h2, fun hc => ht (htap.mpr hc)⟩
  · rintro ⟨h2 | h520, ht⟩
    · exact Or.inr ⟨h2, fun hc => ht (htap.mp hc)⟩
    · exact Or.inl h520

/-- The general rejection condition of `validate_script_size`. -/
theorem validate_script_size_iff (s : List Nat) :
    Consensus.validate_script_size s = .error .ScriptError
      ↔ ((s.length < 2 ∨ 520 < s.length)
            ∧ ¬ (witness_version s = some 1 ∧ s.length = 32))
          ∨ 80000 < count_sigops s := by
  unfold Consensus.validate_script_size
  by_cases h1 : 520 < s.length ∨ (s.length < 2
      ∧ ¬ (witness_version s == some 1 && s.length == 32) = true)
  · simp only [if_pos h1]
    simp only [true_iff]
    exact Or.inl ((script_size_cond_iff s).mp h1)
  · rw [if_neg h1]
    by_cases h2 : 80000 < count_sigops s
    · simp only [if_pos h2, true_iff]
      exact Or.inr h2
    · rw [if_neg h2]
      constructor
      · intro h
        exact absurd h (by simp)
      · rintro (hc | hc)
        · exact absurd ((script_size_cond_iff s).mpr hc) h1
        · exact absurd hc h2

/-- C8: `validate_script_size` rejects exactly the scripts whose length
lies outside 2..=520 bytes and which are not the (length-32, witness v1)
taproot exemption, or whose sigop count exceeds 80,000; lengths 1 and 521
are rejected while 2 and 520 are accepted. -/
theorem validate_script_size_spec :
    (∀ s, Consensus.validate_script_size s = .error .ScriptError
      ↔ ((s.length < 2 ∨ 520 < s.length)
            ∧ ¬ (witness_version s = some 1 ∧ s.length = 32))
          ∨ 80000 < count_sigops s)
    ∧ Consensus.validate_script_size [0] = .error .ScriptError
    ∧ Consensus.validate_script_size [0, 0] = .ok ()
    ∧ Consensus.validate_script_size (List.replicate 520 0) = .ok ()
    ∧ Consensus.validate_script_size (List.replicate 521 0) = .error .ScriptError :=
  ⟨validate_script_size_iff, by decide, by decide, by decide, by decide⟩

end Floresta

namespace Floresta

/-- When the per-transaction loop completes, the weight accumulator has
grown by exactly the weight of the processed transactions other than a
coinbase at index 0. -/
theorem verify_loop_ok_wu (transactions : List Transaction) :
    ∀ n utxos fee wu u f w,
      verify_loop transactions n utxos fee wu = .ok (u, f, w) →
      w = wu + non_coinbase_weight n transactions := by
  induction transactions with
  | nil =>
    intro n utxos fee wu u f w h
    simp only [verify_loop, Except.ok.injEq, Prod.mk.injEq] at h
    simp [non_coinbase_weight, ← h.2.2]
  | cons tx rest ih =>
    intro n utxos fee wu u f w h
    rw [verify_loop] at h
    by_cases hc : (tx.is_coinbase && n == 0) = true
    · rw [if_pos hc] at h
      have := ih (n + 1) utxos fee wu u f w h
      simp [non_coinbase_weight, hc, this]
    · rw [if_neg hc] at h
      simp only at h
      by_cases h1 : (consume_inputs tx.input utxos 0).2 < outputs_value tx.output 0
      · rw [if_pos h1] at h
        exact absurd h (by simp)
      · rw [if_neg h1] at h
        by_cases h2 : 21000000 * 100000000 < outputs_value tx.output 0
        · rw [if_pos h2] at h
          exact absurd h (by simp)
        · rw [if_neg h2] at h
          have := ih (n + 1) _ _ _ u f w h
          simp only [non_coinbase_weight, hc, if_false, Bool.false_eq_true]
          omega

/-- The errors the per-transaction loop can raise (`NotEnoughMoney`,
`TooManyCoins`) are never `BlockTooBig`. -/
theorem verify_loop_err_ne_blocktoobig (transactions : List Transaction) :
    ∀ n utxos fee wu e, verify_loop transactions n utxos fee wu = .error e →
      e ≠ .BlockValidation .BlockTooBig := by
  induction transactions with
  | nil =>
    intro n utxos fee wu e h
    exact absurd h (by simp [verify_loop])
  | cons tx rest ih =>
    intro n utxos fee wu e h
    rw [verify_loop] at h
    by_cases hc : (tx.is_coinbase && n == 0) = true
    · rw [if_pos hc] at h
      exact ih _ _ _ _ _ h
    · rw [if_neg hc] at h
      simp only at h
      by_cases h1 : (consume_inputs tx.input utxos 0).2 < outputs_value tx.output 0
      · rw [if_pos h1] at h
        injection h with h
        subst h
        simp
      · rw [if_neg h1] at h
        by_cases h2 : 21000000 * 100000000 < outputs_value tx.output 0
        · rw [if_pos h2] at h
          injection h with h
          subst h
          simp
        · rw [if_neg h2] at h
          exact ih _ _ _ _ _ h

/-- The weight of a non-segwit single-input single-empty-output
transaction with a 1,000,003-byte script-sig: the 4-byte version, 1-byte
input count, 36-byte outpoint, 5-byte varint, script, 4-byte sequence,
1-byte output count, 9-byte output and 4-byte locktime give a base size of
1,000,067 bytes, hence 4,000,268 WU. (Stated over an abstract script of
that length so that the kernel never has to traverse the literal list.) -/
theorem weight_of_big_script (s : List Nat) (h : s.length = 1000003) :
    transaction_weight ⟨1, 0, [⟨nullOutPoint, s, 4294967295, []⟩], [⟨0, []⟩]⟩ = 4000268 := by
  simp only [transaction_weight, tx_total_size, tx_base_size, uses_segwit, txin_base_size,
    txout_size, List.map_cons, List.map_nil, List.sum_cons, List.sum_nil, List.any_cons,
    List.any_nil, List.length_cons, List.length_nil, h]
  norm_num [varint_size]

/-- Counterexample to C1 as stated: a block whose single transaction is a
coinbase weighing 4,000,268 WU is accepted, because the weight accumulator
skips the coinbase at index 0; the total weight of all transactions of
this accepted list exceeds 4,000,000 WU. -/
theorem verify_block_weight_claim_counterexample :
    Consensus.verify_block_transactions 0 [] [big_coinbase] 0 false 0 = .ok ()
      ∧ 4000000 < total_weight [big_coinbase] := by
  refine ⟨by decide, ?_⟩
  have hw : transaction_weight big_coinbase = 4000268 :=
    weight_of_big_script (List.replicate 1000003 0) (List.length_replicate 1000003 0)
  simp only [total_weight, List.map_cons, List.map_nil, List.sum_cons, List.sum_nil, hw]
  norm_num

/-- C1 (amended): `verify_block_transactions` accumulates the block weight
across the transactions other than a coinbase at index 0 (the coinbase is
skipped by the `continue`); an accepted transaction list has this
accumulated weight at most 4,000,000 WU, and a `BlockTooBig` outcome means
this accumulated weight exceeds 4,000,000 WU. -/
theorem verify_block_weight_spec (height : Nat) (utxos : UtxoMap)
    (transactions : List Transaction) (subsidy : Nat) (verify_script : Bool) (flags : Nat) :
    (Consensus.verify_block_transactions height utxos transactions subsidy verify_script flags
        = .ok () → non_coinbase_weight 0 transactions ≤ 4000000)
    ∧ (Consensus.verify_block_transactions height utxos transactions subsidy verify_script flags
        = .error (.BlockValidation .BlockTooBig) →
        4000000 < non_coinbase_weight 0 transactions) := by
  unfold Consensus.verify_block_transactions
  by_cases he : transactions.isEmpty = true
  · rw [if_pos he]
    constructor
    · intro h
      exact absurd h (by simp)
    · intro h
      injection h with h
      exact absurd h (by simp)
  · rw [if_neg he]
    cases hloop : verify_loop transactions 0 utxos 0 0 with
    | error e =>
      simp only
      constructor
      · intro h
        exact absurd h (by simp)
      · intro h
        injection h with h
        exact absurd h (verify_loop_err_ne_blocktoobig transactions 0 utxos 0 0 e hloop)
    | ok t =>
      obtain ⟨u, fee, wu⟩ := t
      have hwu : wu = non_coinbase_weight 0 transactions := by
        simpa using verify_loop_ok_wu transactions 0 utxos 0 0 u fee wu hloop
      simp only
      by_cases hw : 4000000 < wu
      · rw [if_pos hw]
        constructor
        · intro h
          exact absurd h (by simp)
        · intro _
          omega
      · rw [if_neg hw]
        constructor
        · intro _
          omega
        · intro h
          by_cases hb : fee + subsidy
              < coinbase_out_sum (transactions.headD ⟨0, 0, [], []⟩).output
          · rw [if_pos hb] at h
            injection h with h
            exact absurd h (by simp)
          · rw [if_neg hb] at h
            exact absurd h (by simp)

/-- Witness for C1: a block holding only the minimal coinbase is accepted,
and its accumulated non-coinbase weight is within the cap. -/
theorem verify_block_weight_spec_witness :
    non_coinbase_weight 0 [small_coinbase] ≤ 4000000 :=
  (verify_block_weight_spec 0 [] [small_coinbase] 0 false 0).1 (by decide)

end Floresta

namespace Floresta

/-- When `vout` addresses an existing output, `get_leaf_hashes` succeeds
and produces the hash `leaf_hash_of` of that output (the conditional
header-code update collapses to a single or-expression). -/
theorem get_leaf_hashes_eq (transaction : Transaction) (vout height : Nat) (bhash : List Nat)
    (o : TxOut) (h : transaction.output[vout]? = some o) :
    Consensus.get_leaf_hashes transaction vout height bhash
      = some (leaf_hash_of transaction vout o height bhash) := by
  unfold Consensus.get_leaf_hashes leaf_hash_of
  rw [h]
  cases hc : transaction.is_coinbase <;> simp [hc, Nat.or_zero]

/-- C4: for every transaction, existing output index, height and block
hash, the leaf hash is SHA-512/256 of the 64-byte tag twice, the block
hash, the txid, vout little-endian 32-bit, the header code
`(height <<< 1) ||| is_coinbase` little-endian 32-bit, and the consensus
serialization of the output (value, then varint-prefixed script). -/
theorem get_leaf_hashes_spec (transaction : Transaction) (vout height : Nat) (bhash : List Nat)
    (o : TxOut) (h : transaction.output[vout]? = some o) :
    Consensus.get_leaf_hashes transaction vout height bhash
      = some (sha512x256 (UTREEXO_TAG_V1 ++ UTREEXO_TAG_V1 ++ bhash
          ++ compute_txid transaction ++ toLe 4 vout
          ++ toLe 4 ((height <<< 1) ||| cond transaction.is_coinbase 1 0)
          ++ (toLe 8 o.value ++ varint o.script_pubkey.length ++ o.script_pubkey))) := by
  rw [get_leaf_hashes_eq transaction vout height bhash o h]
  rfl

/-- Witness for C4: the leaf hash of the only output of the minimal
coinbase at height 5. -/
theorem get_leaf_hashes_spec_witness :
    small_coinbase.output[0]? = some c4_out
      ∧ Consensus.get_leaf_hashes small_coinbase 0 5 c4_bhash
          = some (sha512x256 (UTREEXO_TAG_V1 ++ UTREEXO_TAG_V1 ++ c4_bhash
              ++ compute_txid small_coinbase ++ toLe 4 0
              ++ toLe 4 ((5 <<< 1) ||| cond small_coinbase.is_coinbase 1 0)
              ++ (toLe 8 c4_out.value ++ varint c4_out.script_pubkey.length
                  ++ c4_out.script_pubkey))) :=
  ⟨by decide, get_leaf_hashes_spec small_coinbase 0 5 c4_bhash c4_out (by decide)⟩

end Floresta

namespace Floresta

/-- The claim-side spendability predicate is the negation of the source's
`is_unspendable`. -/
theorem spendable_eq_not_unspendable (script : List Nat) :
    spendable script = !Consensus.is_unspendable script := by
  unfold spendable Consensus.is_unspendable
  cases script with
  | nil => rfl
  | cons b rest =>
    by_cases hl : (b :: rest).length > 10000
    · have h1 : ¬ rest.length ≤ 9999 := by simp at hl; omega
      have h2 : 10000 < rest.length + 1 := by simp at hl; omega
      simp [h1, h2]
    · have h1 : rest.length ≤ 9999 := by simp at hl; omega
      have h2 : ¬ 10000 < rest.length + 1 := by simp at hl; omega
      by_cases hb : b = 106 <;> simp [h1, h2, hb, List.headD]

/-- Equality with an `OutPoint` literal, componentwise. -/
theorem outPoint_mk_eq (p : OutPoint) (t : List Nat) (v : Nat) :
    (p = ⟨t, v⟩) ↔ (p.txid = t ∧ p.vout = v) := by
  cases p
  simp

/-- `HashSet::contains` on the collected block inputs agrees with the
claim-side `spent_in_block`. -/
theorem contains_block_inputs_eq (block : Block) (txid : List Nat) (vout : Nat) :
    (block_inputs block).contains (txid, vout) = spent_in_block block txid vout := by
  rw [Bool.eq_iff_iff]
  unfold block_inputs spent_in_block
  simp [List.contains, List.elem_iff, List.mem_flatMap, List.any_eq_true, outPoint_mk_eq,
    Prod.ext_iff]

/-- A congruence principle for `flatMap` with pointwise equal functions. -/
theorem flatMap_congr {α β : Type} (l : List α) (f g : α → List β) (h : ∀ a, f a = g a) :
    l.flatMap f = l.flatMap g := by
  induction l with
  | nil => rfl
  | cons x xs ih => simp only [List.flatMap_cons, h x, ih]

/-- The inner loop of `update_acc`, started at index `i` on the
corresponding suffix of the outputs, produces precisely the filtered,
in-order leaf hashes described by the claim. -/
theorem leaf_hashes_of_tx_eq (transaction : Transaction) (binputs : List (List Nat × Nat))
    (height : Nat) (bhash : List Nat) (spent : Nat → Bool)
    (hspent : ∀ i, binputs.contains (compute_txid transaction, i) = spent i) :
    ∀ (outs : List TxOut) (i : Nat), outs = transaction.output.drop i →
      leaf_hashes_of_tx transaction binputs height bhash i outs
        = (List.enumFrom i outs).filterMap (fun p =>
            if spendable p.2.script_pubkey && !(spent p.1) then
              some (leaf_hash_of transaction p.1 p.2 height bhash)
            else none) := by
  intro outs
  induction outs with
  | nil => intro i _; rfl
  | cons o rest ih =>
    intro i hdrop
    have hget : transaction.output[i]? = some o := by
      rw [← List.head?_drop, ← hdrop]
      rfl
    have hrest : rest = transaction.output.drop (i + 1) := by
      have h1 : transaction.output.drop (i + 1) = List.drop 1 (transaction.output.drop i) := by
        rw [List.drop_drop]
      rw [h1, ← hdrop]
      rfl
    simp only [leaf_hashes_of_tx, List.enumFrom, List.filterMap_cons,
      get_leaf_hashes_eq transaction i height bhash o hget, hspent i,
      ← spendable_eq_not_unspendable]
    cases hcond : (spendable o.script_pubkey && !(spent i)) with
    | false =>
      simp only [Bool.false_eq_true, if_false]
      rw [ih (i + 1) hrest]
    | true =>
      simp only [if_true]
      rw [ih (i + 1) hrest]

/-- The additions list `update_acc` builds equals the claim-side ordered
comprehension. -/
theorem update_acc_additions_eq (block : Block) (height : Nat) :
    update_acc_additions block height = additions_spec block height := by
  simp only [update_acc_additions, additions_spec]
  apply flatMap_congr
  intro transaction
  have h := leaf_hashes_of_tx_eq transaction (block_inputs block) height (block_hash block)
    (fun i => spent_in_block block (compute_txid transaction) i)
    (fun i => contains_block_inputs_eq block (compute_txid transaction) i)
    transaction.output 0 (List.drop_zero _).symm
  rw [h]
  rfl

/-- C3: the additions list `update_acc` passes to `stump.modify` contains
the leaf hash of an output exactly for the spendable outputs whose
outpoint is not spent by any input of the same block, in
(transaction index, output index) order — stated as a list equality with
the claim-side comprehension `additions_spec`. -/
theorem update_acc_additions_spec (block : Block) (height : Nat) :
    update_acc_additions block height = additions_spec block height :=
  update_acc_additions_eq block height

end Floresta

namespace Floresta

/-- C10: `is_unspendable` is total — the `OP_RETURN` head test sits behind
the non-emptiness guard, so the function is the safe `head?`-based
characterization below — and the empty script counts as spendable, so an
empty-script output that no input of the block spends contributes its leaf
to the additions of `update_acc`. -/
theorem is_unspendable_spec :
    Consensus.is_unspendable [] = false
    ∧ (∀ script, Consensus.is_unspendable script
        = (decide (10000 < script.length) || (script.head?.getD 0 == 106)))
    ∧ (∀ (block : Block) (height : Nat) (transaction : Transaction) (i : Nat) (o : TxOut),
        transaction ∈ block.txdata → (i, o) ∈ transaction.output.enum →
        o.script_pubkey = [] →
        spent_in_block block (compute_txid transaction) i = false →
        leaf_hash_of transaction i o height (block_hash block)
          ∈ update_acc_additions block height) := by
  refine ⟨rfl, ?_, ?_⟩
  · intro script
    cases script with
    | nil => rfl
    | cons b rest =>
      unfold Consensus.is_unspendable
      by_cases hl : (b :: rest).length > 10000
      · have h2 : 10000 < rest.length + 1 := by simp at hl; omega
        simp [h2]
      · have h2 : ¬ 10000 < rest.length + 1 := by simp at hl; omega
        by_cases hb : b = 106 <;> simp [h2, hb, List.headD]
  · intro block height transaction i o htx henum hscript hspent
    rw [update_acc_additions_eq]
    unfold additions_spec
    rw [List.mem_flatMap]
    refine ⟨transaction, htx, ?_⟩
    rw [List.mem_filterMap]
    refine ⟨(i, o), henum, ?_⟩
    simp [hscript, hspent, spendable]

/-- Witness for C10: in a block whose single transaction has no inputs and
one empty-script output, that output's leaf hash is among the additions. -/
theorem is_unspendable_spec_witness :
    c10_tx ∈ c10_block.txdata ∧ ((0 : Nat), (⟨7, []⟩ : TxOut)) ∈ c10_tx.output.enum
      ∧ spent_in_block c10_block (compute_txid c10_tx) 0 = false
      ∧ leaf_hash_of c10_tx 0 ⟨7, []⟩ 9 (block_hash c10_block)
          ∈ update_acc_additions c10_block 9 :=
  ⟨by decide, by decide, by decide,
   is_unspendable_spec.2.2 c10_block 9 c10_tx 0 ⟨7, []⟩ (by decide) (by decide) rfl
     (by decide)⟩

end Floresta
